import Mathlib

/-!
# Verification of spec claims for oasislabs/developer-gateway

Shallow embedding of the parts of the repository the claims are about:

* `src/backend/eth/client.go` — the `EthClient` wallet loop (`runTransaction`,
  `updateNonce`, `executeTransaction` transaction construction).
* `src/unnamed/part_001` — the in-memory mailbox `Server` (`mem` package) and
  the redis-backed `MQueue.retrieve`.
* `src/unnamed/part_000` — the `noise.FixedConnPool` dial loop.
* `src/auth/insecure/insecure.go` — `InsecureAuth.Verify`.
* `src/auth/oauth/google.go` — `GoogleOauth.Verify`.
* The `tx.WalletOwner` submission handling, modelled from the spec (its
  implementation is not part of the sources here, only its tests).

Go `uint64` values are modelled as `Nat` (none of the verified properties
involve wrap-around), Go `error` results as `Option String` / `Except String`
carrying the error message.
-/

namespace DevGateway

/-! ## String helpers

`strings.Contains` from the Go standard library, modelled on `List Char`. -/

/-- `startsWithCL sub s` is true when `sub` is a prefix of the character list `s`. -/
def startsWithCL : List Char → List Char → Bool
  | [], _ => true
  | _ :: _, [] => false
  | a :: sub, b :: s => a == b && startsWithCL sub s

/-- `containsCL sub s` is true when `sub` occurs contiguously inside `s`. -/
def containsCL (sub : List Char) : List Char → Bool
  | [] => startsWithCL sub []
  | b :: s => startsWithCL sub (b :: s) || containsCL sub s

/-- Go's `strings.Contains s sub`. -/
def strContains (s sub : String) : Bool :=
  containsCL sub.toList s.toList

/-! ## Data model of `src/backend/eth/client.go`

Events and errors carried on a request's `out` channel. `rpc.Error` has an
integer code and a description. -/

/-- `rpc.Error` from the repository: `{ErrorCode, Description}`. -/
structure RpcError where
  errorCode : Int
  description : String
deriving DecidableEq, Repr

/-- `backend.Event` values produced by the eth client: either the success event
`backend.ExecuteServiceEvent{ID, Address}` (also used by the deploy path, which
calls the same `executeTransaction`) or `ErrorEvent{ID, Cause}`. -/
inductive Event where
  | executeServiceEvent (id : Nat) (address : String)
  | errorEvent (id : Nat) (cause : RpcError)
deriving DecidableEq, Repr

/-- The retryable request state visible to `runTransaction`: the request id and
the `Attempts` counter (`ethRequest.RequestID` / `GetAttempts`). -/
structure EthRequest where
  id : Nat
  attempts : Nat
deriving DecidableEq, Repr

/-- The error emitted by `runTransaction` when `req.GetAttempts() >= 10`:
`rpc.Error{Description: "failed to execute service", ErrorCode: -1}`. -/
def failedToExecuteError : RpcError :=
  { errorCode := -1, description := "failed to execute service" }

/-- The error emitted by `runTransaction` when `updateNonce` fails:
`rpc.Error{Description: "failed to update nonce", ErrorCode: -1}`. -/
def failedToUpdateNonceError : RpcError :=
  { errorCode := -1, description := "failed to update nonce" }

/-! ## `EthClient.updateNonce`

The backend is abstracted as `fetch : Nat → Option Nat`, the result of the
i-th `c.Nonce(...)` call inside the refresh loop (`none` = transient error). -/

/-- The body of `updateNonce`'s `for attempts := 0; attempts < 10; attempts++`
loop: try `fetch attempt`; on error continue with the next attempt; on success
raise the local counter to the remote nonce if it is behind and stop. -/
def updateNonceGo (fetch : Nat → Option Nat) (localNonce : Nat) :
    (attempt fuel : Nat) → Option Nat
  | _, 0 => none
  | attempt, fuel + 1 =>
    match fetch attempt with
    | none => updateNonceGo fetch localNonce (attempt + 1) fuel
    | some remote => some (if localNonce < remote then remote else localNonce)

/-- `EthClient.updateNonce`: up to 10 attempts starting at attempt 0; `none`
models the `"exceeded attempts to update nonce"` error return. -/
def updateNonce (fetch : Nat → Option Nat) (localNonce : Nat) : Option Nat :=
  updateNonceGo fetch localNonce 0 10

/-! ## `EthClient.runTransaction`

The submission closure `fn` (which runs `executeService`/`deployService`) is
abstracted as `Nat → Except String Event`: it receives the allocated nonce and
either produces the event to emit or fails with a Go error message. The
observable effect of `runTransaction` is one action: either a send on
`req.OutCh()` or a re-enqueue of the request on `c.inCh`. -/

/-- One observable action of `runTransaction`: emit an event on the request's
out channel, or re-enqueue the request on the client's inbound channel. -/
inductive TxAction where
  | emit (e : Event)
  | reenqueue (r : EthRequest)
deriving DecidableEq, Repr

/-- `EthClient.runTransaction` from `src/backend/eth/client.go`: returns the new
value of `c.nonce` together with the list of actions performed (each source
branch performs exactly one). Mirrors the source order: the attempts cap, the
nonce refresh for retried requests, nonce allocation, then the dispatch on the
submission outcome (`strings.Contains(err.Error(), "nonce")` selects a retry). -/
def runTransaction (nonceCtr : Nat) (req : EthRequest) (fetch : Nat → Option Nat)
    (fn : Nat → Except String Event) : Nat × List TxAction :=
  if 10 ≤ req.attempts then
    (nonceCtr, [TxAction.emit (Event.errorEvent req.id failedToExecuteError)])
  else
    match (if 0 < req.attempts then updateNonce fetch nonceCtr else some nonceCtr) with
    | none =>
      (nonceCtr, [TxAction.emit (Event.errorEvent req.id failedToUpdateNonceError)])
    | some ctr =>
      match fn ctr with
      | Except.ok ev => (ctr + 1, [TxAction.emit ev])
      | Except.error msg =>
        if strContains msg "nonce" then
          (ctr + 1, [TxAction.reenqueue { req with attempts := req.attempts + 1 }])
        else
          (ctr + 1, [TxAction.emit (Event.errorEvent req.id ⟨-1, msg⟩)])

/-- Modelled from the spec: the message of the sentinel error `eth.ErrInvalidNonce`
(the `eth` package is not among the sources here). Spec §4.2: an error that
equals the sentinel `InvalidNonce` is caught by the same `"nonce"` substring
check, so its message contains `"nonce"`. -/
def errInvalidNonceMsg : String := "invalid transaction nonce"

/-! ## Transaction construction in `EthClient.executeTransaction`

`types.NewContractCreation` / `types.NewTransaction` results, keeping the
fields the claims talk about. The recipient is kept as the raw address string
(`common.HexToAddress` only re-encodes it); `toAddr = none` models a contract
creation (absent `To` field). -/

/-- `const gasPrice int64 = 1000000000` from `src/backend/eth/client.go`. -/
def gasPrice : Int := 1000000000

/-- An Ethereum transaction as constructed by `executeTransaction`. -/
structure EthTx where
  nonce : Nat
  toAddr : Option String
  value : Int
  gas : Nat
  gasPrice : Int
  data : String
deriving DecidableEq, Repr

/-- The construction step of `executeTransaction` (lines 318–325 of
`src/backend/eth/client.go`): `types.NewContractCreation(nonce, 0, gas,
gasPrice, data)` when `len(address) == 0`, else `types.NewTransaction(nonce,
address, 0, gas, gasPrice, data)`. -/
def buildTransaction (nonce : Nat) (address : String) (gas : Nat) (data : String) : EthTx :=
  if address.length = 0 then
    { nonce := nonce, toAddr := none, value := 0, gas := gas,
      gasPrice := DevGateway.gasPrice, data := data }
  else
    { nonce := nonce, toAddr := some address, value := 0, gas := gas,
      gasPrice := DevGateway.gasPrice, data := data }

/-- The prefix of `executeTransaction` up to and including transaction
construction: on gas-estimation failure no transaction is constructed (the
function returns an `EstimateGas` error event instead); on success the
transaction is built from the estimated gas. -/
def executeTransactionTx (nonce : Nat) (address data : String)
    (estimate : Except String Nat) : Option EthTx :=
  match estimate with
  | Except.error _ => none
  | Except.ok gas => some (buildTransaction nonce address gas data)

/-! ## In-memory mailbox server (`src/unnamed/part_001`, package `mem`)

For the discard path only the set of keys that currently have a worker
matters, so the supervisor state is modelled as that list of keys.
The mem `Worker` implementation is not among the sources; for a key that does
have a worker the reply on the out channel is modelled from the spec (§4.3:
`Discard` drops elements and is idempotent, i.e. it succeeds), which the
discard claims do not depend on. -/

/-- The error message built by `Server.discard` for a key with no worker:
`errors.New("attempt to discard queue that does not exist")`. -/
def queueNotFoundMsg : String := "attempt to discard queue that does not exist"

/-- The value delivered on the `Out` channel by the supervisor's discard path
(`Server.discard`): for an unknown key the supervisor itself sends the
`queueNotFoundMsg` error; otherwise the request is forwarded to the worker,
whose reply is `none` (success). -/
def serverDiscardOut (workers : List String) (key : String) (_offset : Nat) : Option String :=
  if workers.contains key then none
  else some queueNotFoundMsg

/-- The public `Server.Discard` (lines 187–192): it sends the request, reads
the reply from the out channel (`<-out`) — and then returns `nil` regardless
of that reply. -/
def serverDiscardPublic (workers : List String) (key : String) (offset : Nat) : Option String :=
  let _reply := serverDiscardOut workers key offset
  none

/-- For comparison, the public `Server.Insert` (lines 171–175) returns the
value read from the out channel (`return <-out`). -/
def serverInsertPublic (reply : Option String) : Option String :=
  reply

/-! ## Redis-backed mailbox retrieval (`src/unnamed/part_001`, package `redis`)

`MQueue.retrieve` decodes each blob returned by the server-side script into a
`redisElement{Offset, Type, Value, Set}` and folds over them. The JSON decoding
itself is not modelled: the input is the list of already-decoded elements, in
script order. -/

/-- A decoded element of the redis script reply. -/
structure RedisElement where
  offset : Nat
  elType : String
  value : String
  set : Bool
deriving DecidableEq, Repr

/-- `core.Element` as assembled by `MQueue.retrieve`. -/
structure CoreElement where
  offset : Nat
  elType : String
  value : String
deriving DecidableEq, Repr

/-- `core.Elements`: the retrieved window. -/
structure CoreElements where
  offset : Nat
  elements : List CoreElement
deriving DecidableEq, Repr

/-- The fields `MQueue.retrieve` copies into the result element. -/
def redisToCore (el : RedisElement) : CoreElement :=
  { offset := el.offset, elType := el.elType, value := el.value }

/-- The loop of `MQueue.retrieve` (lines 356–386): `offsetSet`/`offset` track
the offset of the first element of the window regardless of its `Set` flag;
elements with `Set = false` are skipped, the rest are appended to the result. -/
def retrieveLoop : List RedisElement → Bool → Nat → List CoreElement → Nat × List CoreElement
  | [], _, offset, acc => (offset, acc)
  | el :: rest, offsetSet, offset, acc =>
    let offsetNew := if offsetSet then offset else el.offset
    if el.set then
      retrieveLoop rest true offsetNew (acc ++ [redisToCore el])
    else
      retrieveLoop rest true offsetNew acc

/-- `MQueue.retrieve` on an already-decoded script reply: fold the elements and
return `core.Elements{Elements, Offset}`. -/
def mqueueRetrieve (els : List RedisElement) : CoreElements :=
  let r := retrieveLoop els false 0 []
  { offset := r.1, elements := r.2 }

/-! ## Connection pool dial loop (`src/unnamed/part_000`, package `noise`)

The underlying channel dial is abstracted as `dials : Nat → Bool`, the success
of the i-th `DialContext`. The outcome records which connections were
established (their loops started), which were closed before `DialFixedPool`
returned, and whether the pool context was cancelled. The source contains no
`Close` call on any connection — on a dial failure it calls `cancel()` (which
stops the per-connection loops) and returns the error, as flagged by its own
TODO comment. -/

/-- The observable outcome of `DialFixedPool`. -/
structure DialOutcome where
  ok : Bool
  established : List Nat
  closed : List Nat
  cancelled : Bool
deriving DecidableEq, Repr

/-- The `for i := 0; i < props.Conns; i++` loop of `DialFixedPool`: on a
successful dial the connection's loop is started and the loop continues; on a
failed dial `cancel()` is called and the error is returned, with no connection
closed. -/
def dialLoop (dials : Nat → Bool) : Nat → Nat → List Nat → DialOutcome
  | _, 0, est => { ok := true, established := est, closed := [], cancelled := false }
  | i, remaining + 1, est =>
    if dials i then
      dialLoop dials (i + 1) remaining (est ++ [i])
    else
      { ok := false, established := est, closed := [], cancelled := true }

/-- `DialFixedPool` with `conns` connections. -/
def dialFixedPool (conns : Nat) (dials : Nat → Bool) : DialOutcome :=
  dialLoop dials 0 conns []

/-! ## Insecure auth plugin (`src/auth/insecure/insecure.go`) -/

/-- `ErrDataTooShort = errors.New("Payload data is too short")`. -/
def errDataTooShortMsg : String := "Payload data is too short"

/-- `InsecureAuth.Verify(data, expectedAAD)`: returns `ErrDataTooShort` when
`len(data) == 0` and `nil` otherwise. The `expectedAAD` parameter appears in
the signature but is never read. -/
def InsecureAuth.Verify (data _expectedAAD : String) : Option String :=
  if data.length = 0 then some errDataTooShortMsg else none

/-! ## Google OAuth auth plugin (`src/auth/oauth/google.go`)

`auth.AuthRequest` is not among the sources; its two fields used by
`GoogleOauth.Verify` (`data.API`, `data.AAD`) are taken from that usage. The
context is modelled by the `expectedAAD` value that `core.MustGetAAD(ctx)`
would extract from it (assumed present, as `MustGetAAD` panics otherwise). -/

/-- The fields of `auth.AuthRequest` read by `GoogleOauth.Verify`. -/
structure AuthRequest where
  api : String
  aad : String
deriving DecidableEq, Repr

/-- The error message for `data.API == "Deploy"`. -/
def deployNotAuthorizedMsg : String :=
  "GoogleOauth cannot authorize a user to deploy a service"

/-- The error message for an AAD mismatch. -/
def aadMismatchMsg : String := "AAD does not match"

/-- `GoogleOauth.Verify(ctx, data)`: reject any request with `API == "Deploy"`
before looking at the AAD; otherwise compare `data.AAD` with the expected AAD
from the context. -/
def GoogleOauth.Verify (expectedAAD : String) (data : AuthRequest) : Option String :=
  if data.api = "Deploy" then some deployNotAuthorizedMsg
  else if data.aad ≠ expectedAAD then some aadMismatchMsg
  else none

/-! ## Wallet owner submission handling (`tx.WalletOwner.executeTransaction`)

The `tx` package wallet owner is not among the sources here — only its tests
(`TestExecuteTransactionExceedsBalance`, `TestExecuteTransactionNoAddressBadNonce`)
are. Its behaviour is modelled from the spec. -/

/-- Error codes of the wallet owner's error events (spec §7 taxonomy). -/
inductive OwnerErrorCode where
  | estimateGas
  | signedTx
  | sendTransaction
  | invalidNonce
  | outOfFunds
  | transactionReceipt
  | transactionReceiptStatus
  | executeFailed
deriving DecidableEq, Repr

/-- Events emitted by the wallet owner. -/
inductive OwnerEvent where
  | executeOk (id : Nat) (address : String) (output : String)
  | deployOk (id : Nat) (address : String)
  | error (id : Nat) (code : OwnerErrorCode)
deriving DecidableEq, Repr

/-- Outcome of `SendTransaction` as seen by the wallet owner: success with a
receipt hash and output, or one of the sentinel errors, or any other error. -/
inductive SubmitOutcome where
  | ok (hash : String) (output : String)
  | exceedsBalance
  | invalidNonce
  | other (msg : String)
deriving DecidableEq, Repr

/-- Outcome of `TransactionReceipt`: a receipt with a status and contract
address, or a retrieval error. -/
inductive ReceiptOutcome where
  | ok (status : Nat) (contractAddress : String)
  | err (msg : String)
deriving DecidableEq, Repr

/-- One processing step's observable result: the addresses passed to the
`WalletOutOfFunds` callback (in order), the event emitted on the request's out
channel (if any), and whether the request was re-enqueued for retry. -/
structure OwnerStepResult where
  callbacks : List String
  event : Option OwnerEvent
  retried : Bool
deriving DecidableEq, Repr

/-- Modelled from the spec: `tx.WalletOwner.executeTransaction` (spec §4.2
Execute/Deploy algorithm, steps 2–5; the `tx` package implementation is not in
the sources, only its tests). Estimate gas — on failure emit
`ErrorEvent{EstimateGas}` and stop; submit — on `InvalidNonce` re-enqueue for
retry, on `ExceedsBalance` invoke the `WalletOutOfFunds` callback with the
owner's address and emit `ErrorEvent{OutOfFunds}`, on any other error emit
`ErrorEvent{SendTransaction}`; then fetch the receipt — on failure emit
`ErrorEvent{TransactionReceipt}`, on `Status ≠ 1` emit
`ErrorEvent{TransactionReceiptStatus}`, else emit the typed success event
(deploy takes its address from the receipt's `ContractAddress`). -/
def ownerExecuteTransaction (ownerAddress : String) (id : Nat) (isDeploy : Bool)
    (reqAddress : String) (estimate : Option Nat) (submit : SubmitOutcome)
    (receipt : ReceiptOutcome) : OwnerStepResult :=
  match estimate with
  | none => { callbacks := [], event := some (OwnerEvent.error id OwnerErrorCode.estimateGas),
              retried := false }
  | some _gas =>
    match submit with
    | SubmitOutcome.invalidNonce =>
      { callbacks := [], event := none, retried := true }
    | SubmitOutcome.exceedsBalance =>
      { callbacks := [ownerAddress],
        event := some (OwnerEvent.error id OwnerErrorCode.outOfFunds), retried := false }
    | SubmitOutcome.other _ =>
      { callbacks := [], event := some (OwnerEvent.error id OwnerErrorCode.sendTransaction),
        retried := false }
    | SubmitOutcome.ok _hash output =>
      match receipt with
      | ReceiptOutcome.err _ =>
        { callbacks := [],
          event := some (OwnerEvent.error id OwnerErrorCode.transactionReceipt),
          retried := false }
      | ReceiptOutcome.ok status contractAddress =>
        if status ≠ 1 then
          { callbacks := [],
            event := some (OwnerEvent.error id OwnerErrorCode.transactionReceiptStatus),
            retried := false }
        else if isDeploy then
          { callbacks := [], event := some (OwnerEvent.deployOk id contractAddress),
            retried := false }
        else
          { callbacks := [], event := some (OwnerEvent.executeOk id reqAddress output),
            retried := false }

/-! ## Small-step semantics of the `EthClient` loop (`startLoop` + `runTransaction`)

`startLoop` consumes `c.inCh` strictly serially, but `runTransaction` spawns a
goroutine (`go func() { event, err := fn(nonce, req); ... }()`) right after
allocating the nonce and returns, so the loop can dequeue the next request
while earlier submissions are still running. The semantics makes both visible:

* `dequeue` — the loop takes the head of the queue and runs the synchronous
  part of `runTransaction` (attempts cap, nonce refresh, nonce allocation);
  on allocation the spawned submission joins `inFlight`.
* `complete i res` — the scheduler finishes in-flight submission `i` with
  outcome `res` (the goroutine body: a nonce-class error re-enqueues the
  request at the tail of the queue, anything else emits an event).

`refreshes : Nat → Nat → Option Nat` supplies, for the k-th `updateNonce`
invocation overall, that invocation's backend fetch oracle. -/

/-- The state of one `EthClient`'s loop: the contents of `c.inCh`, the `c.nonce`
counter, the spawned submissions not yet finished (nonce and request), the
events emitted on out channels so far, the nonces allocated so far in
allocation order, and the number of `updateNonce` invocations so far. -/
structure LoopState where
  queue : List EthRequest
  nonceCtr : Nat
  inFlight : List (Nat × EthRequest)
  events : List Event
  allocated : List Nat
  refreshCount : Nat
deriving DecidableEq, Repr

/-- A scheduling/backend choice for one step of the loop semantics. -/
inductive LoopLabel where
  | dequeue
  | complete (i : Nat) (res : Except String Event)

/-- One step of the loop semantics; `none` when the label is not enabled in the
given state. -/
def loopStep (refreshes : Nat → Nat → Option Nat) (s : LoopState) :
    LoopLabel → Option LoopState
  | LoopLabel.dequeue =>
    match s.queue with
    | [] => none
    | req :: rest =>
      if 10 ≤ req.attempts then
        some { s with
          queue := rest,
          events := s.events ++ [Event.errorEvent req.id failedToExecuteError] }
      else if 0 < req.attempts then
        match updateNonce (refreshes s.refreshCount) s.nonceCtr with
        | none =>
          some { s with
            queue := rest,
            refreshCount := s.refreshCount + 1,
            events := s.events ++ [Event.errorEvent req.id failedToUpdateNonceError] }
        | some ctr =>
          some { s with
            queue := rest,
            refreshCount := s.refreshCount + 1,
            nonceCtr := ctr + 1,
            inFlight := s.inFlight ++ [(ctr, req)],
            allocated := s.allocated ++ [ctr] }
      else
        some { s with
          queue := rest,
          nonceCtr := s.nonceCtr + 1,
          inFlight := s.inFlight ++ [(s.nonceCtr, req)],
          allocated := s.allocated ++ [s.nonceCtr] }
  | LoopLabel.complete i res =>
    match s.inFlight[i]? with
    | none => none
    | some (_nonce, req) =>
      let remaining := s.inFlight.eraseIdx i
      match res with
      | Except.ok ev =>
        some { s with inFlight := remaining, events := s.events ++ [ev] }
      | Except.error msg =>
        if strContains msg "nonce" then
          some { s with
            inFlight := remaining,
            queue := s.queue ++ [{ req with attempts := req.attempts + 1 }] }
        else
          some { s with
            inFlight := remaining,
            events := s.events ++ [Event.errorEvent req.id ⟨-1, msg⟩] }

/-- Run a sequence of labels from a state; fails when a label is not enabled. -/
def runLoop (refreshes : Nat → Nat → Option Nat) (s : LoopState) :
    List LoopLabel → Option LoopState
  | [] => some s
  | l :: ls =>
    match loopStep refreshes s l with
    | none => none
    | some s1 => runLoop refreshes s1 ls

/-- The initial state of a loop whose inbound channel holds `q` and whose nonce
counter starts at `c0` (on start the owner fetches its pending nonce into
`c.nonce`; here it is an arbitrary `c0`). -/
def initLoopState (q : List EthRequest) (c0 : Nat) : LoopState :=
  { queue := q, nonceCtr := c0, inFlight := [], events := [], allocated := [],
    refreshCount := 0 }

/-! ## Helper lemmas -/

/-- A string of length zero is the empty string. -/
theorem string_eq_empty_of_length_eq_zero (s : String) (h : s.length = 0) : s = "" := by
  cases s with
  | mk l =>
    cases l with
    | nil => rfl
    | cons a t => simp [String.length] at h

/-- Unfolding `retrieveLoop` once `offsetSet` is true: the offset is frozen and
the loop appends exactly the set elements. -/
theorem retrieveLoop_offsetSet (l : List RedisElement) (off : Nat) (acc : List CoreElement) :
    retrieveLoop l true off acc
      = (off, acc ++ (l.filter (fun e => e.set)).map redisToCore) := by
  induction l generalizing acc with
  | nil => simp [retrieveLoop]
  | cons e t ih =>
    cases he : e.set <;>
      simp [retrieveLoop, he, ih, List.filter_cons]

/-! ## Claim theorems -/

/-- C1: the claim states that `Discard` on a key with no queue returns the
`QueueNotFound` error to the caller. In the source, the supervisor's discard
path does construct and send that error on the out channel, but the public
`Server.Discard` reads the reply and returns `nil` unconditionally, so the
caller never sees it (evaluated here at the failing input: a fresh server with
no workers and key `"k"`). -/
theorem c1_discard_unknown_key_error_swallowed :
    serverDiscardOut [] "k" 0 = some queueNotFoundMsg ∧
    serverDiscardPublic [] "k" 0 = none ∧
    (∀ (workers : List String) (key : String) (offset : Nat),
      serverDiscardPublic workers key offset = none) :=
  ⟨by decide, rfl, fun _ _ _ => rfl⟩

/-- C3: when gas estimation succeeded and submission fails with the
`ExceedsBalance` sentinel, the wallet owner invokes the `WalletOutOfFunds`
callback exactly once with the owner's address, emits `ErrorEvent{OutOfFunds}`,
and does not retry the request (spec-modelled: the `tx.WalletOwner`
implementation is not among the sources, only its tests). -/
theorem c3_exceeds_balance_callback (ownerAddress : String) (id : Nat)
    (isDeploy : Bool) (reqAddress : String) (gas : Nat) (receipt : ReceiptOutcome) :
    ownerExecuteTransaction ownerAddress id isDeploy reqAddress (some gas)
        SubmitOutcome.exceedsBalance receipt
      = { callbacks := [ownerAddress],
          event := some (OwnerEvent.error id OwnerErrorCode.outOfFunds),
          retried := false } ∧
    (ownerExecuteTransaction ownerAddress id isDeploy reqAddress (some gas)
        SubmitOutcome.exceedsBalance receipt).callbacks.length = 1 :=
  ⟨rfl, rfl⟩

/-- C5: the claim states that when one dial fails during pool construction,
every already-established connection is closed before `Dial` returns. In the
source no connection is ever closed (its own TODO flags this): with two
connections where the first dial succeeds and the second fails, `Dial` returns
the error with connection 0 established, the context cancelled, and nothing
closed. -/
theorem c5_dial_failure_leaks_established :
    dialFixedPool 2 (fun i => i == 0)
      = { ok := false, established := [0], closed := [], cancelled := true } ∧
    (dialFixedPool 2 (fun i => i == 0)).established ≠ [] ∧
    (dialFixedPool 2 (fun i => i == 0)).closed = [] :=
  ⟨by decide, by decide, by decide⟩

/-- C6: every execute/deploy request that reaches the transaction-construction
step yields a transaction with `value = 0`, `gasPrice = 1000000000`, gas equal
to the backend's estimate, and a contract creation exactly when the request's
address is empty (otherwise a call to that address). -/
theorem c6_transaction_construction (nonce : Nat) (address data : String) (gas : Nat) :
    executeTransactionTx nonce address data (Except.ok gas)
      = some (buildTransaction nonce address gas data) ∧
    (buildTransaction nonce address gas data).value = 0 ∧
    (buildTransaction nonce address gas data).gasPrice = 1000000000 ∧
    (buildTransaction nonce address gas data).gas = gas ∧
    (buildTransaction nonce address gas data).toAddr
      = (if address = "" then none else some address) := by
  refine ⟨rfl, ?_, ?_, ?_, ?_⟩ <;>
    rcases eq_or_ne address "" with h | h
  all_goals
    first
    | (subst h; simp [buildTransaction, gasPrice])
    | (have hl : ¬ address.length = 0 :=
        fun hz => h (string_eq_empty_of_length_eq_zero address hz)
       simp [buildTransaction, gasPrice, hl, h])

/-- C8: for a retrieval whose script reply decodes to a non-empty list of
entries, the result excludes every entry whose `Set` flag is false, and the
returned window offset is the offset of the first entry whether or not that
entry is set. -/
theorem c8_redis_retrieve_filters_unset (el : RedisElement) (rest : List RedisElement) :
    (mqueueRetrieve (el :: rest)).offset = el.offset ∧
    (mqueueRetrieve (el :: rest)).elements
      = ((el :: rest).filter (fun e => e.set)).map redisToCore := by
  cases he : el.set <;>
    simp [mqueueRetrieve, retrieveLoop, he, retrieveLoop_offsetSet, List.filter_cons]

/-- C9: `InsecureAuth.Verify` never reads `expectedAAD` — its result is
identical for any two expected AADs — and it returns no error on every
non-empty payload. -/
theorem c9_insecure_verify_ignores_aad :
    (∀ data aad1 aad2 : String,
      InsecureAuth.Verify data aad1 = InsecureAuth.Verify data aad2) ∧
    (∀ data aad : String, data ≠ "" → InsecureAuth.Verify data aad = none) := by
  refine ⟨fun data a1 a2 => rfl, fun data aad h => ?_⟩
  unfold InsecureAuth.Verify
  rw [if_neg]
  exact fun hz => h (string_eq_empty_of_length_eq_zero data hz)

/-- Witness for C9 at `data = "a"`, AADs `"x"` and `"y"`. -/
theorem c9_insecure_verify_ignores_aad_witness :
    InsecureAuth.Verify "a" "x" = InsecureAuth.Verify "a" "y" ∧
    InsecureAuth.Verify "a" "x" = none :=
  ⟨c9_insecure_verify_ignores_aad.1 "a" "x" "y",
   c9_insecure_verify_ignores_aad.2 "a" "x" (by decide)⟩

/-- C10: `GoogleOauth.Verify` rejects every request whose `API` field is
`"Deploy"`, even when the request's AAD equals the expected AAD, so a
Google-OAuth-authenticated user can never be authorized to deploy. -/
theorem c10_google_verify_rejects_deploy (expectedAAD aad : String) :
    GoogleOauth.Verify expectedAAD { api := "Deploy", aad := aad }
      = some deployNotAuthorizedMsg ∧
    GoogleOauth.Verify expectedAAD { api := "Deploy", aad := expectedAAD }
      = some deployNotAuthorizedMsg := by
  constructor <;> simp [GoogleOauth.Verify]

/-- When every fetch in the remaining fuel window fails, the refresh loop
exhausts its attempts and reports failure. -/
theorem updateNonceGo_all_fail (fetch : Nat → Option Nat) (localNonce : Nat) :
    ∀ (fuel attempt : Nat),
    (∀ j, attempt ≤ j → j < attempt + fuel → fetch j = none) →
    updateNonceGo fetch localNonce attempt fuel = none := by
  intro fuel
  induction fuel with
  | zero => intro attempt _; rfl
  | succ n ih =>
    intro attempt h
    have h0 : fetch attempt = none := h attempt le_rfl (by omega)
    simp only [updateNonceGo, h0]
    exact ih (attempt + 1) (fun j h1 h2 => h j (by omega) (by omega))

/-- The refresh loop stops at the first successful fetch and raises the local
counter to the remote nonce when it is behind. -/
theorem updateNonceGo_first_success (fetch : Nat → Option Nat) (localNonce : Nat) :
    ∀ (fuel attempt k remote : Nat), attempt ≤ k → k < attempt + fuel →
    (∀ j, attempt ≤ j → j < k → fetch j = none) → fetch k = some remote →
    updateNonceGo fetch localNonce attempt fuel
      = some (if localNonce < remote then remote else localNonce) := by
  intro fuel
  induction fuel with
  | zero => intro attempt k remote h1 h2 _ _; omega
  | succ n ih =>
    intro attempt k remote hak hk hnone hs
    by_cases he : attempt = k
    · subst he
      simp only [updateNonceGo, hs]
    · have h0 : fetch attempt = none := hnone attempt le_rfl (by omega)
      simp only [updateNonceGo, h0]
      exact ih (attempt + 1) k remote (by omega) (by omega)
        (fun j hj1 hj2 => hnone j (by omega) hj2) hs

/-- C2: `runTransaction` caps retries at 10 attempts — a request arriving with
`attempts ≥ 10` makes the owner emit exactly one `ErrorEvent` (the
`"failed to execute service"` error, code −1) on the request's out channel and
perform nothing else, for every possible submission function — and a submission
failure whose error string contains `"nonce"` (which includes the
`InvalidNonce` sentinel) increments the attempts counter and re-enqueues the
request on the inbound channel as the only action. -/
theorem c2_attempt_cap_and_nonce_retry :
    (∀ (nonceCtr : Nat) (req : EthRequest) (fetch : Nat → Option Nat)
       (fn : Nat → Except String Event),
      10 ≤ req.attempts →
      runTransaction nonceCtr req fetch fn
        = (nonceCtr, [TxAction.emit (Event.errorEvent req.id failedToExecuteError)])) ∧
    (∀ (nonceCtr ctr : Nat) (req : EthRequest) (fetch : Nat → Option Nat)
       (fn : Nat → Except String Event) (msg : String),
      req.attempts < 10 →
      (if 0 < req.attempts then updateNonce fetch nonceCtr else some nonceCtr) = some ctr →
      fn ctr = Except.error msg →
      strContains msg "nonce" = true →
      runTransaction nonceCtr req fetch fn
        = (ctr + 1, [TxAction.reenqueue { req with attempts := req.attempts + 1 }])) ∧
    strContains errInvalidNonceMsg "nonce" = true := by
  refine ⟨?_, ?_, by decide⟩
  · intro nonceCtr req fetch fn h
    simp only [runTransaction, if_pos h]
  · intro nonceCtr ctr req fetch fn msg hlt hupd hfn hmsg
    rw [runTransaction, if_neg (by omega), hupd]
    simp only [hfn, hmsg, if_pos]

/-- Witness for C2: a request at its 10th attempt terminates with the error
event; a fresh request whose submission fails with the `InvalidNonce` sentinel
message is re-enqueued with `attempts = 1`. -/
theorem c2_attempt_cap_and_nonce_retry_witness :
    runTransaction 5 { id := 7, attempts := 10 } (fun _ => none)
        (fun _ => Except.ok (Event.executeServiceEvent 7 "0x00"))
      = (5, [TxAction.emit (Event.errorEvent 7 failedToExecuteError)]) ∧
    runTransaction 5 { id := 7, attempts := 0 } (fun _ => none)
        (fun _ => Except.error errInvalidNonceMsg)
      = (6, [TxAction.reenqueue { id := 7, attempts := 1 }]) :=
  ⟨c2_attempt_cap_and_nonce_retry.1 5 { id := 7, attempts := 10 } (fun _ => none)
      (fun _ => Except.ok (Event.executeServiceEvent 7 "0x00")) (by decide),
   c2_attempt_cap_and_nonce_retry.2.1 5 5 { id := 7, attempts := 0 } (fun _ => none)
      (fun _ => Except.error errInvalidNonceMsg) errInvalidNonceMsg
      (by decide) rfl rfl (by decide)⟩

/-- C7: for a retried request (`attempts > 0`), the owner refreshes its local
nonce counter from the backend before allocating: `updateNonce` tries at most
10 fetches, swallows each transient error, and on the first success sets the
counter to `max(local, remote)`; if all 10 attempts fail, `runTransaction`
emits the `"failed to update nonce"` error event and never reaches submission
(for every submission function), leaving the counter unchanged. -/
theorem c7_nonce_refresh_max_and_bound :
    (∀ (fetch : Nat → Option Nat) (localNonce k remote : Nat),
      k < 10 → (∀ j, j < k → fetch j = none) → fetch k = some remote →
      updateNonce fetch localNonce = some (max localNonce remote)) ∧
    (∀ (fetch : Nat → Option Nat) (localNonce : Nat),
      (∀ j, j < 10 → fetch j = none) → updateNonce fetch localNonce = none) ∧
    (∀ (nonceCtr : Nat) (req : EthRequest) (fetch : Nat → Option Nat)
       (fn : Nat → Except String Event),
      0 < req.attempts → req.attempts < 10 → updateNonce fetch nonceCtr = none →
      runTransaction nonceCtr req fetch fn
        = (nonceCtr,
           [TxAction.emit (Event.errorEvent req.id failedToUpdateNonceError)])) := by
  refine ⟨?_, ?_, ?_⟩
  · intro fetch localNonce k remote hk hnone hs
    rw [updateNonce, updateNonceGo_first_success fetch localNonce 10 0 k remote
      (by omega) (by omega) (fun j _ hj => hnone j hj) hs]
    congr 1
    split <;> omega
  · intro fetch localNonce h
    exact updateNonceGo_all_fail fetch localNonce 10 0 (fun j _ hj => h j (by omega))
  · intro nonceCtr req fetch fn hpos hlt hupd
    rw [runTransaction, if_neg (by omega), if_pos hpos, hupd]

/-- Witness for C7: with a backend that answers 42 on the first fetch the
counter becomes `max 7 42 = 42`; with a backend that always fails the refresh
reports failure and the retried request terminates with the error event. -/
theorem c7_nonce_refresh_max_and_bound_witness :
    updateNonce (fun j => if j = 0 then some 42 else none) 7 = some 42 ∧
    updateNonce (fun _ => none) 7 = none ∧
    runTransaction 7 { id := 3, attempts := 1 } (fun _ => none)
        (fun _ => Except.ok (Event.executeServiceEvent 3 "0x00"))
      = (7, [TxAction.emit (Event.errorEvent 3 failedToUpdateNonceError)]) :=
  ⟨c7_nonce_refresh_max_and_bound.1 (fun j => if j = 0 then some 42 else none) 7 0 42
      (by decide) (fun j hj => absurd hj (by omega)) (by decide),
   c7_nonce_refresh_max_and_bound.2.1 (fun _ => none) 7 (fun _ _ => rfl),
   c7_nonce_refresh_max_and_bound.2.2 7 { id := 3, attempts := 1 } (fun _ => none)
      (fun _ => Except.ok (Event.executeServiceEvent 3 "0x00"))
      (by decide) (by decide)
      (c7_nonce_refresh_max_and_bound.2.1 (fun _ => none) 7 (fun _ _ => rfl))⟩

/-- A label that does not trigger a retry: any dequeue, and any completion
whose outcome is not a nonce-class error. -/
def noRetryLabel : LoopLabel → Bool
  | LoopLabel.dequeue => true
  | LoopLabel.complete _ res =>
    match res with
    | Except.ok _ => true
    | Except.error msg => !(strContains msg "nonce")

/-- One enabled loop step preserves: all queued requests fresh (attempts 0),
the allocated nonces are exactly `range' c0`, and the counter sits one past the
last allocation — provided the step is not a retry. -/
theorem loopStep_preserves (refreshes : Nat → Nat → Option Nat) (s s' : LoopState)
    (l : LoopLabel) (c0 : Nat)
    (hstep : loopStep refreshes s l = some s')
    (hl : noRetryLabel l = true)
    (hq : ∀ r ∈ s.queue, r.attempts = 0)
    (ha : s.allocated = List.range' c0 s.allocated.length)
    (hc : s.nonceCtr = c0 + s.allocated.length) :
    (∀ r ∈ s'.queue, r.attempts = 0) ∧
    s'.allocated = List.range' c0 s'.allocated.length ∧
    s'.nonceCtr = c0 + s'.allocated.length := by
  cases l with
  | dequeue =>
    cases hqe : s.queue with
    | nil => simp [loopStep, hqe] at hstep
    | cons req rest =>
      have hr0 : req.attempts = 0 := hq req (hqe ▸ List.mem_cons_self _ _)
      simp only [loopStep, hqe] at hstep
      rw [if_neg (by omega), if_neg (by omega)] at hstep
      injection hstep with hstep
      subst hstep
      refine ⟨?_, ?_, ?_⟩
      · intro r hr
        exact hq r (hqe ▸ List.mem_cons_of_mem _ hr)
      · show s.allocated ++ [s.nonceCtr]
          = List.range' c0 (s.allocated ++ [s.nonceCtr]).length
        rw [List.length_append, List.length_singleton, List.range'_1_concat, ← ha, ← hc]
      · show s.nonceCtr + 1 = c0 + (s.allocated ++ [s.nonceCtr]).length
        rw [List.length_append, List.length_singleton]
        omega
  | complete i res =>
    cases hie : s.inFlight[i]? with
    | none => simp [loopStep, hie] at hstep
    | some p =>
      obtain ⟨nonce, req⟩ := p
      cases res with
      | ok ev =>
        simp only [loopStep, hie] at hstep
        injection hstep with hstep
        subst hstep
        exact ⟨hq, ha, hc⟩
      | error msg =>
        have hm : strContains msg "nonce" = false := by
          simpa [noRetryLabel] using hl
        simp only [loopStep, hie] at hstep
        rw [if_neg (by simp [hm])] at hstep
        injection hstep with hstep
        subst hstep
        exact ⟨hq, ha, hc⟩

/-- Along any retry-free run, the invariant of `loopStep_preserves` carries to
the final state. -/
theorem runLoop_preserves (refreshes : Nat → Nat → Option Nat) :
    ∀ (labels : List LoopLabel) (s s' : LoopState) (c0 : Nat),
    runLoop refreshes s labels = some s' →
    (∀ l ∈ labels, noRetryLabel l = true) →
    (∀ r ∈ s.queue, r.attempts = 0) →
    s.allocated = List.range' c0 s.allocated.length →
    s.nonceCtr = c0 + s.allocated.length →
    s'.allocated = List.range' c0 s'.allocated.length ∧
    s'.nonceCtr = c0 + s'.allocated.length := by
  intro labels
  induction labels with
  | nil =>
    intro s s' c0 h _ _ ha hc
    simp only [runLoop] at h
    injection h with h
    subst h
    exact ⟨ha, hc⟩
  | cons l ls ih =>
    intro s s' c0 h hl hq ha hc
    cases hstep : loopStep refreshes s l with
    | none => simp [runLoop, hstep] at h
    | some s1 =>
      simp only [runLoop, hstep] at h
      obtain ⟨hq1, ha1, hc1⟩ := loopStep_preserves refreshes s s1 l c0 hstep
        (hl l (List.mem_cons_self _ _)) hq ha hc
      exact ih s1 s' c0 h (fun x hx => hl x (List.mem_cons_of_mem _ hx)) hq1 ha1 hc1

/-- C4 counterexample: the claim asserts at most one transaction per wallet is
in flight at any moment. But `runTransaction` spawns the submission in a
goroutine right after allocating the nonce and returns, so with two fresh
requests queued, two consecutive dequeue steps — no retry involved — put two
transactions (nonces 0 and 1) in flight simultaneously. -/
theorem c4_two_in_flight_counterexample :
    (runLoop (fun _ _ => none)
        (initLoopState [{ id := 1, attempts := 0 }, { id := 2, attempts := 0 }] 0)
        [LoopLabel.dequeue, LoopLabel.dequeue]).map (fun t => t.inFlight)
      = some [(0, { id := 1, attempts := 0 }), (1, { id := 2, attempts := 0 })] ∧
    (runLoop (fun _ _ => none)
        (initLoopState [{ id := 1, attempts := 0 }, { id := 2, attempts := 0 }] 0)
        [LoopLabel.dequeue, LoopLabel.dequeue]).map (fun t => t.inFlight.length)
      = some 2 :=
  ⟨rfl, rfl⟩

/-- C4 amended: nonces are allocated serially by the loop in dequeue order
(which is enqueue order while no retry occurs), consecutively from the initial
counter — but several transactions may be in flight at once, and the relative
order of their signing/submission is not constrained. Formally: along any
retry-free run from fresh requests, the allocated-nonce sequence is exactly
`c0, c0+1, …` in allocation order and the counter sits one past it. -/
theorem c4_nonces_allocated_in_order (refreshes : Nat → Nat → Option Nat)
    (q : List EthRequest) (c0 : Nat) (labels : List LoopLabel) (s : LoopState)
    (hrun : runLoop refreshes (initLoopState q c0) labels = some s)
    (hq : ∀ r ∈ q, r.attempts = 0)
    (hl : ∀ l ∈ labels, noRetryLabel l = true) :
    s.allocated = List.range' c0 s.allocated.length ∧
    s.nonceCtr = c0 + s.allocated.length :=
  runLoop_preserves refreshes labels (initLoopState q c0) s c0 hrun hl hq rfl rfl

/-- Witness for the amended C4 on a concrete retry-free run: two dequeues from
counter 5 allocate nonces `[5, 6]` and leave the counter at 7. -/
theorem c4_nonces_allocated_in_order_witness :
    ([5, 6] : List Nat) = List.range' 5 ([5, 6] : List Nat).length ∧
    (7 : Nat) = 5 + ([5, 6] : List Nat).length :=
  c4_nonces_allocated_in_order (fun _ _ => none)
    [⟨1, 0⟩, ⟨2, 0⟩] 5 [LoopLabel.dequeue, LoopLabel.dequeue]
    ⟨[], 7, [(5, ⟨1, 0⟩), (6, ⟨2, 0⟩)], [], [5, 6], 0⟩
    rfl (by decide) (by decide)

end DevGateway
